import Mathlib

/-!
Verification development for the TexasPoker repository (files `poker.py` and
`pokergame.py`): a shallow embedding of the equity estimator, the AI decision
policy and the heads-up betting state machine, together with theorems about
the properties the specification claims.

Modelling conventions:
* deuces card integers are identified with their deuces string (`Card.new` is
  an injective encoding of the 52 rank-suit strings, so the integer values are
  irrelevant to every property considered here); a `Card` is that string.
* the external deuces `Evaluator.evaluate` scoring oracle is a parameter
  (`Oracle`), lower score is better, ties possible.
* randomness (`random.sample`, `random.random`, `Deck.draw`) is injected: each
  sampling site receives the list of cards the sampler produced (Monte Carlo
  trials receive one list per trial index), and each bluff roll receives the
  Boolean outcome of its `random.random() < p` test.
* fallible Python code (the `ZeroDivisionError` raised when dividing by a zero
  trial budget, and in the pot-odds quotient when `current_pot + to_call == 0`)
  is modelled with `Except`.
-/

namespace TexasPoker

abbrev Card := String

/-- Score returned by the deuces evaluator: a total order where lower wins. -/
abbrev Score := Int

/-- The external hand-scoring oracle `evaluator.evaluate(hand, board)`. -/
abbrev Oracle := List Card → List Card → Score

/-- `RANKS = '23456789TJQKA'` from both source files. -/
def RANKS : List Char := ['2', '3', '4', '5', '6', '7', '8', '9', 'T', 'J', 'Q', 'K', 'A']

/-- `SUITS = 'shdc'` from both source files. -/
def SUITS : List Char := ['s', 'h', 'd', 'c']

/-- `create_all_cards()`: the 52 card strings rank-then-suit, rank-major order. -/
def create_all_cards : List Card :=
  RANKS.flatMap (fun rank => SUITS.map (fun suit => String.mk [rank, suit]))

/-- `ALL_CARDS_STR = create_all_cards()`. -/
def ALL_CARDS_STR : List Card := create_all_cards

/-- The unknown pool recomputed by the source at every use site:
`[c for c in full_deck_int if c not in known_cards]` with
`known_cards = player_hand_int + board_int`. -/
def unknown_pool (player_hand_int board_int : List Card) : List Card :=
  ALL_CARDS_STR.filter (fun c => c ∉ player_hand_int ++ board_int)

/-- `itertools.combinations(pool, k)`: all k-subsets of the pool as lists, in
the deterministic lexicographic-by-position order itertools produces. -/
def combinations {α : Type} : Nat → List α → List (List α)
  | 0, _ => [[]]
  | _ + 1, [] => []
  | k + 1, x :: xs => (combinations k xs).map (fun t => x :: t) ++ combinations (k + 1) xs

/-- Shared body of one scored draw: split the drawn cards into an opponent
hand (first `needed_for_opp`) and the rest of the board, score both seats on
the completed board, and bump the (wins, ties) tally. -/
def tally_draw (ev : Oracle) (player_hand_int board_int : List Card)
    (needed_for_opp : Nat) (drawn_cards : List Card) (wt : Nat × Nat) : Nat × Nat :=
  let opponent_hand := drawn_cards.take needed_for_opp
  let remaining_board := drawn_cards.drop needed_for_opp
  let final_board := board_int ++ remaining_board
  let player_score := ev player_hand_int final_board
  let opponent_score := ev opponent_hand final_board
  if player_score < opponent_score then (wt.1 + 1, wt.2)
  else if player_score = opponent_score then (wt.1, wt.2 + 1)
  else wt

/-- `enumerate_equity` from `poker.py` (lines 57-98): exact equity by folding
over every combination of `needed_total` unknown cards in itertools order.
Returns `(equity, total_sims)`.  `5 - num_board` uses truncated subtraction,
which agrees with the Python value on every board of at most 5 cards. -/
def enumerate_equity (ev : Oracle) (player_hand_int board_int : List Card) : ℚ × Nat :=
  let unknown := unknown_pool player_hand_int board_int
  let num_board := board_int.length
  let needed_for_opp := 2
  let needed_for_board := 5 - num_board
  let needed_total := needed_for_opp + needed_for_board
  let combos := combinations needed_total unknown
  let wt := combos.foldl (fun wt d => tally_draw ev player_hand_int board_int needed_for_opp d wt) (0, 0)
  let total_sims := combos.length
  if total_sims = 0 then (0, 0)
  else (((wt.1 : ℚ) + (1 / 2) * (wt.2 : ℚ)) / (total_sims : ℚ), total_sims)

/-- The Monte Carlo trial loop shared by `poker.py` lines 120-144 and
`pokergame.py` lines 56-79: trial `i` recomputes the unknown pool, skips when
the pool is smaller than `needed_total` (`continue`), and otherwise scores the
injected sample `draws i`.  Returns the accumulated `(wins, ties)`. -/
def mc_loop (ev : Oracle) (player_hand_int board_int : List Card)
    (draws : Nat → List Card) : Nat → Nat × Nat
  | 0 => (0, 0)
  | n + 1 =>
    let wt := mc_loop ev player_hand_int board_int draws n
    let unknown := unknown_pool player_hand_int board_int
    let needed_total := 2 + (5 - board_int.length)
    if unknown.length < needed_total then wt
    else tally_draw ev player_hand_int board_int 2 (draws n) wt

/-- The method tag carried by the second component of the estimator's return:
`"N/A"`, `"Exact Calculation ({total_sims} iterations)"`, or
`"Monte Carlo ({simulations} simulations)"`. -/
inductive Method where
  | na : Method
  | exactCalc (total_sims : Nat) : Method
  | monteCarlo (simulations : Nat) : Method
deriving DecidableEq

/-- `calculate_equity` from `poker.py` (lines 103-147, default
`simulations=10000`): reject hands that are not exactly 2 cards with
`(0.0, "N/A")`; exact enumeration when the board has 4 or more cards;
otherwise Monte Carlo, dividing the tally by `simulations` — which raises
`ZeroDivisionError` when the budget is 0. -/
def calculate_equity (ev : Oracle) (player_hand_int board_int : List Card)
    (simulations : Nat) (draws : Nat → List Card) : Except String (ℚ × Method) :=
  if player_hand_int.length ≠ 2 then Except.ok (0, Method.na)
  else if board_int.length ≥ 4 then
    let r := enumerate_equity ev player_hand_int board_int
    Except.ok (r.1, Method.exactCalc r.2)
  else
    let wt := mc_loop ev player_hand_int board_int draws simulations
    if simulations = 0 then Except.error "ZeroDivisionError"
    else Except.ok (((wt.1 : ℚ) + (1 / 2) * (wt.2 : ℚ)) / (simulations : ℚ),
      Method.monteCarlo simulations)

/-- `calculate_equity` from `pokergame.py` (lines 45-82, default
`simulations=50000`): the simplified in-game copy with no exact branch — it
always runs the Monte Carlo loop after the 2-card check. -/
def pokergame_calculate_equity (ev : Oracle) (player_hand_int board_int : List Card)
    (simulations : Nat) (draws : Nat → List Card) : Except String (ℚ × Method) :=
  if player_hand_int.length ≠ 2 then Except.ok (0, Method.na)
  else
    let wt := mc_loop ev player_hand_int board_int draws simulations
    if simulations = 0 then Except.error "ZeroDivisionError"
    else Except.ok (((wt.1 : ℚ) + (1 / 2) * (wt.2 : ℚ)) / (simulations : ℚ),
      Method.monteCarlo simulations)

/-- Spec-side count of completed sampling trials, written from the spec's
words ("skip the trial and do not count it toward the trial total"): every
trial tests the same pool against the same `draw_total`, so either all
`simulations` trials complete or none do. -/
def completed_trials (player_hand_int board_int : List Card) (simulations : Nat) : Nat :=
  if (unknown_pool player_hand_int board_int).length < 2 + (5 - board_int.length) then 0
  else simulations

/-- `get_ai_action` from `pokergame.py` (lines 93-160).  `bb` is the
`st.session_state.bb` global the source reads for `min_raise`; `roll1` is the
outcome of `random.random() < BLUFF_PROBABILITY` and `roll2` of
`random.random() < 0.1`.  The pot-odds quotient raises `ZeroDivisionError`
when `to_call > 0` and `current_pot + to_call == 0`. -/
def get_ai_action (bb : ℚ) (roll1 roll2 : Bool)
    (ai_equity current_pot to_call ai_stack : ℚ) : Except String (String × ℚ) :=
  let FOLD_THRESHOLD : ℚ := 30 / 100
  let CALL_THRESHOLD : ℚ := 45 / 100
  let RAISE_THRESHOLD : ℚ := 75 / 100
  let min_raise : ℚ := max bb (2 * to_call)
  if to_call > 0 ∧ current_pot + to_call = 0 then Except.error "ZeroDivisionError"
  else
    let required_equity : ℚ := if to_call > 0 then to_call / (current_pot + to_call) else 0
    if to_call = 0 then
      if ai_equity ≥ RAISE_THRESHOLD then
        Except.ok ("Bet", min (75 / 100 * current_pot) ai_stack)
      else if ai_equity ≤ FOLD_THRESHOLD ∧ roll1 = true then
        Except.ok ("Bet", min (50 / 100 * current_pot) ai_stack)
      else
        Except.ok ("Check", 0)
    else
      if ai_equity ≥ RAISE_THRESHOLD then
        Except.ok ("Raise", max (min (3 * to_call) ai_stack) min_raise)
      else if ai_equity ≥ required_equity ∧ ai_equity ≥ CALL_THRESHOLD then
        Except.ok ("Call", to_call)
      else if ai_equity ≥ required_equity ∧ ai_equity < CALL_THRESHOLD ∧ roll2 = true then
        Except.ok ("Raise", max (min (3 * to_call) ai_stack) min_raise)
      else
        Except.ok ("Fold", 0)

/-- A trivial concrete scoring oracle (every score 0) used to instantiate
oracle-parametric theorems on concrete inputs. -/
def oracle0 : Oracle := fun _ _ => 0

/-!
The betting state machine of `pokergame.py`: the `st.session_state` fields
written by `init_game_state`, `start_new_hand`, `advance_street`,
`end_hand_showdown` and the action handlers of `main()`.
-/

/-- The `st.session_state` fields owned by the game (lines 166-181). -/
structure GameState where
  game_active : Bool
  game_over : Bool
  hand_outcome : Option String
  player_stack : ℚ
  ai_stack : ℚ
  bb : ℚ
  current_pot : ℚ
  board : List Card
  player_hand : List Card
  ai_hand : List Card
  round_street : String
  to_call : ℚ
  known_cards : List Card
deriving DecidableEq

/-- `init_game_state(initial_stack=1000, bb=20)` from `pokergame.py`. -/
def init_game_state (initial_stack bb : ℚ) : GameState :=
  { game_active := false
    game_over := false
    hand_outcome := none
    player_stack := initial_stack
    ai_stack := initial_stack
    bb := bb
    current_pot := 0
    board := []
    player_hand := []
    ai_hand := []
    round_street := ""
    to_call := 0
    known_cards := [] }

/-- `start_new_hand()` from `pokergame.py` (lines 183-216).  `dealt` injects
the four hole cards `deck.draw(4)` produced; the source assigns
`current_pot = 0` and then `current_pot = sb + bb`, modelled as the net
assignment.  On insufficient chips only `game_active` changes. -/
def start_new_hand (dealt : List Card) (s : GameState) : GameState :=
  if s.player_stack ≤ 0 ∨ s.ai_stack ≤ 0 then
    { s with game_active := false }
  else
    let player_hand_int := dealt.take 2
    let ai_hand_int := dealt.drop 2
    let sb := s.bb / 2
    { s with
      game_active := true
      player_hand := player_hand_int
      ai_hand := ai_hand_int
      board := []
      round_street := "Preflop"
      to_call := s.bb
      player_stack := s.player_stack - sb
      ai_stack := s.ai_stack - s.bb
      current_pot := sb + s.bb
      known_cards := player_hand_int ++ ai_hand_int }

/-- One street transition inside `advance_street` (lines 228-257): the street
name advances, the board gains the injected sample when `num_draw > 0` and the
available pool is large enough (else the source only shows an error), and
`to_call` resets to 0 in either case. -/
def advance_draw (num_draw : Nat) (new_street : String) (street_draw : List Card)
    (s : GameState) : GameState :=
  let available_cards :=
    ALL_CARDS_STR.filter (fun c => c ∉ s.player_hand ++ s.ai_hand ++ s.board)
  { s with
    round_street := new_street
    board :=
      if 0 < num_draw ∧ num_draw ≤ available_cards.length then
        s.board ++ street_draw.take num_draw
      else s.board
    to_call := 0 }

/-- `advance_street()` from `pokergame.py` (lines 219-258): Preflop deals 3,
Flop and Turn deal 1; any other street returns before touching `to_call`. -/
def advance_street (street_draw : List Card) (s : GameState) : GameState :=
  if s.round_street = "Preflop" then advance_draw 3 "Flop" street_draw s
  else if s.round_street = "Flop" then advance_draw 1 "Turn" street_draw s
  else if s.round_street = "Turn" then advance_draw 1 "River" street_draw s
  else s

/-- `end_hand_showdown` from `pokergame.py` (lines 260-294): lower score takes
the whole pot, a tie splits it in halves; `game_over` is set and
`hand_outcome` cleared.  The pot field itself is left untouched. -/
def end_hand_showdown (ev : Oracle) (s : GameState) : GameState :=
  let player_score := ev s.player_hand s.board
  let ai_score := ev s.ai_hand s.board
  { s with
    player_stack :=
      if player_score < ai_score then s.player_stack + s.current_pot
      else if ai_score < player_score then s.player_stack
      else s.player_stack + s.current_pot / 2
    ai_stack :=
      if player_score < ai_score then s.ai_stack
      else if ai_score < player_score then s.ai_stack + s.current_pot
      else s.ai_stack + s.current_pot / 2
    game_over := true
    hand_outcome := none }

/-- `advance_game_state()` from `main()` (lines 437-443): showdown on the
river once betting closes, otherwise advance the street when `to_call == 0`. -/
def advance_game_state (ev : Oracle) (street_draw : List Card) (s : GameState) : GameState :=
  if s.round_street = "River" ∧ s.to_call = 0 then end_hand_showdown ev s
  else if s.to_call = 0 then advance_street street_draw s
  else s

/-- `handle_ai_turn()` from `main()` (lines 422-435): recompute the AI equity
with `pokergame.py`'s `calculate_equity` (default budget 50000) except
preflop, then ask `get_ai_action`.  The `.error` fallback of the equity match
is unreachable because the budget is nonzero. -/
def handle_ai_turn (ev : Oracle) (draws : Nat → List Card) (roll1 roll2 : Bool)
    (s : GameState) : Except String (String × ℚ) :=
  let ai_equity : ℚ :=
    if s.round_street ≠ "Preflop" then
      match pokergame_calculate_equity ev s.ai_hand s.board 50000 draws with
      | Except.ok r => r.1
      | Except.error _ => 0
    else 1 / 2
  get_ai_action s.bb roll1 roll2 ai_equity s.current_pot s.to_call s.ai_stack

/-- The discrete actions the hosting UI can fire, each carrying the injected
randomness its handler consumes (`draws` feeds the AI-equity Monte Carlo,
`roll1`/`roll2` the bluff rolls, `street_draw` the next street's cards). -/
inductive GAction where
  | startHand (dealt : List Card)
  | playerFold
  | playerCheck (draws : Nat → List Card) (roll1 roll2 : Bool) (street_draw : List Card)
  | playerCall (street_draw : List Card)
  | playerBetRaise (amount : ℚ) (draws : Nat → List Card) (roll1 roll2 : Bool)
      (street_draw : List Card)

/-- One interaction step of `main()` (lines 300-560).  Guards mirror the UI:
the start button exists only on the game-over and not-started screens (the
game-over one also clears `game_over` and `hand_outcome`, lines 364-368);
Fold/Call require `to_call > 0`, Check requires `to_call = 0`; the bet handler
commits the player's chips before the AI response, so a `ZeroDivisionError`
inside the AI turn leaves those mutations in place.  An action whose guard
fails leaves the state unchanged. -/
def step (ev : Oracle) (s : GameState) (a : GAction) : GameState :=
  match a with
  | GAction.startHand dealt =>
    if s.game_over = true then
      let s1 := start_new_hand dealt s
      { s1 with game_over := false, hand_outcome := none }
    else if s.game_active = false then
      start_new_hand dealt s
    else s
  | GAction.playerFold =>
    if s.game_active = true ∧ s.game_over = false ∧ s.to_call > 0 then
      { s with
        ai_stack := s.ai_stack + s.current_pot
        game_over := true
        hand_outcome := some "You folded. AI won the pot." }
    else s
  | GAction.playerCheck draws roll1 roll2 street_draw =>
    if s.game_active = true ∧ s.game_over = false ∧ s.to_call = 0 then
      match handle_ai_turn ev draws roll1 roll2 s with
      | Except.ok (ai_action, ai_amount) =>
        if ai_action = "Check" then advance_game_state ev street_draw s
        else
          { s with
            ai_stack := s.ai_stack - ai_amount
            current_pot := s.current_pot + ai_amount
            to_call := ai_amount }
      | Except.error _ => s
    else s
  | GAction.playerCall street_draw =>
    if s.game_active = true ∧ s.game_over = false ∧ s.to_call > 0 then
      let s1 := { s with
        player_stack := s.player_stack - s.to_call
        current_pot := s.current_pot + s.to_call
        to_call := 0 }
      advance_game_state ev street_draw s1
    else s
  | GAction.playerBetRaise amount draws roll1 roll2 street_draw =>
    if s.game_active = true ∧ s.game_over = false then
      let s1 := { s with
        player_stack := s.player_stack - amount
        current_pot := s.current_pot + amount
        to_call := amount }
      match handle_ai_turn ev draws roll1 roll2 s1 with
      | Except.ok (ai_action, ai_amount) =>
        if ai_action = "Fold" then
          { s1 with
            player_stack := s1.player_stack + s1.current_pot
            game_over := true
            hand_outcome := some "AI folded! You won the pot." }
        else if ai_action = "Call" then
          let s2 := { s1 with
            ai_stack := s1.ai_stack - s1.to_call
            current_pot := s1.current_pot + s1.to_call
            to_call := 0 }
          advance_game_state ev street_draw s2
        else if ai_action = "Raise" then
          { s1 with
            ai_stack := s1.ai_stack - ai_amount
            current_pot := s1.current_pot + ai_amount
            to_call := ai_amount }
        else s1
      | Except.error _ => s1
    else s

/-- Running a sequence of interaction steps. -/
def run (ev : Oracle) (acts : List GAction) (s : GameState) : GameState :=
  acts.foldl (step ev) s

/-- The stacks alone. -/
def chipTotal (s : GameState) : ℚ := s.player_stack + s.ai_stack

/-- The observation sum of the conservation claim: stacks plus pot. -/
def chipSum (s : GameState) : ℚ := s.player_stack + s.ai_stack + s.current_pot

/-- A hand is live when it has started and not yet resolved. -/
def handLive (s : GameState) : Bool := s.game_active && !s.game_over

/-- The quantity the machine actually conserves: stacks plus pot while the
hand is live, stacks alone otherwise (the pot field is left stale at hand
end and only reset by the next `start_new_hand`). -/
def chipMeasure (s : GameState) : ℚ :=
  if handLive s = true then chipSum s else chipTotal s


theorem length_filter_mem_le (l known : List Card) (hn : l.Nodup) :
    (l.filter (fun c => c ∈ known)).length ≤ known.length := by
  have h1 : (l.filter (fun c => c ∈ known)).Nodup := hn.filter _
  have h2 : (l.filter (fun c => c ∈ known)).toFinset ⊆ known.toFinset := by
    intro x hx
    rw [List.mem_toFinset] at hx ⊢
    have := List.of_mem_filter hx
    exact of_decide_eq_true this
  calc (l.filter (fun c => c ∈ known)).length
      = (l.filter (fun c => c ∈ known)).toFinset.card := (List.toFinset_card_of_nodup h1).symm
    _ ≤ known.toFinset.card := Finset.card_le_card h2
    _ ≤ known.length := List.toFinset_card_le (l := known)

/-- The unknown pool misses at most one full-deck card per known card: its
length plus the hand and board lengths is at least 52. -/
theorem unknown_pool_length_ge (hand board : List Card) :
    52 ≤ (unknown_pool hand board).length + (hand.length + board.length) := by
  have hn : ALL_CARDS_STR.Nodup := by decide
  have hlen : ALL_CARDS_STR.length = 52 := by decide
  have hpart := List.length_eq_length_filter_add (l := ALL_CARDS_STR)
    (fun c => c ∈ hand ++ board)
  have hmem := length_filter_mem_le ALL_CARDS_STR (hand ++ board) hn
  have hpool : (unknown_pool hand board).length
      = (ALL_CARDS_STR.filter (fun c => !(decide (c ∈ hand ++ board)))).length := by
    unfold unknown_pool
    simp only [decide_not]
  rw [hpool]
  rw [hlen] at hpart
  rw [List.length_append] at hmem
  omega

/-- C10: for every board and simulation budget, a hand that is not exactly 2
cards makes both estimators return exactly `(0.0, "N/A")` with no scoring or
sampling performed. -/
theorem C10_invalid_hand_na (ev : Oracle) (hand board : List Card) (sims : Nat)
    (draws : Nat → List Card) (h : hand.length ≠ 2) :
    calculate_equity ev hand board sims draws = Except.ok (0, Method.na) ∧
      pokergame_calculate_equity ev hand board sims draws = Except.ok (0, Method.na) := by
  constructor
  · unfold calculate_equity
    rw [if_pos h]
  · unfold pokergame_calculate_equity
    rw [if_pos h]

theorem C10_invalid_hand_na_witness :
    (([] : List Card).length ≠ 2) ∧
      (calculate_equity oracle0 [] [] 0 (fun _ => []) = Except.ok (0, Method.na) ∧
        pokergame_calculate_equity oracle0 [] [] 0 (fun _ => []) = Except.ok (0, Method.na)) :=
  ⟨by decide, C10_invalid_hand_na oracle0 [] [] 0 (fun _ => []) (by decide)⟩

/-- C7: with 4 or more board cards the estimator takes the exact-enumeration
branch, which consumes no randomness: two calls with arbitrary (different)
injected random sources return identical (equity, method/trial) results. -/
theorem C7_exact_deterministic (ev : Oracle) (hand board : List Card) (sims : Nat)
    (draws1 draws2 : Nat → List Card) (h : 4 ≤ board.length) :
    calculate_equity ev hand board sims draws1 = calculate_equity ev hand board sims draws2 := by
  unfold calculate_equity
  by_cases hh : hand.length ≠ 2
  · rw [if_pos hh, if_pos hh]
  · rw [if_neg hh, if_neg hh, if_pos h, if_pos h]

theorem C7_exact_deterministic_witness :
    4 ≤ (["2h", "3h", "4h", "5h"] : List Card).length ∧
      calculate_equity oracle0 ["As", "Ks"] ["2h", "3h", "4h", "5h"] 5 (fun _ => ["7c"]) =
        calculate_equity oracle0 ["As", "Ks"] ["2h", "3h", "4h", "5h"] 5 (fun _ => ["8c"]) :=
  ⟨by decide, C7_exact_deterministic oracle0 ["As", "Ks"] ["2h", "3h", "4h", "5h"] 5
    (fun _ => ["7c"]) (fun _ => ["8c"]) (by decide)⟩

/-- C6: over the reachable board sizes {0, 3, 4, 5}, `poker.py`'s estimator
returns the Exact tag exactly on boards of 4 or 5 cards and the Monte Carlo
tag exactly on boards of 0 or 3 cards (for any positive trial budget). -/
theorem C6_method_boundary (ev : Oracle) (hand board : List Card) (sims : Nat)
    (draws : Nat → List Card) (hh : hand.length = 2) (hs : 1 ≤ sims)
    (hb : board.length = 0 ∨ board.length = 3 ∨ board.length = 4 ∨ board.length = 5) :
    ∃ q m, calculate_equity ev hand board sims draws = Except.ok (q, m) ∧
      ((∃ n, m = Method.exactCalc n) ↔ (board.length = 4 ∨ board.length = 5)) ∧
      (m = Method.monteCarlo sims ↔ (board.length = 0 ∨ board.length = 3)) := by
  have hh2 : ¬ hand.length ≠ 2 := by omega
  by_cases h4 : board.length ≥ 4
  · refine ⟨(enumerate_equity ev hand board).1,
      Method.exactCalc (enumerate_equity ev hand board).2, ?_, ?_, ?_⟩
    · unfold calculate_equity
      rw [if_neg hh2, if_pos h4]
    · constructor
      · intro _
        omega
      · intro _
        exact ⟨_, rfl⟩
    · constructor
      · intro hcon
        exact absurd hcon (by simp)
      · intro hc
        omega
  · refine ⟨(((mc_loop ev hand board draws sims).1 : ℚ) +
        (1 / 2) * ((mc_loop ev hand board draws sims).2 : ℚ)) / (sims : ℚ),
      Method.monteCarlo sims, ?_, ?_, ?_⟩
    · unfold calculate_equity
      rw [if_neg hh2, if_neg h4, if_neg (by omega : ¬ sims = 0)]
    · constructor
      · intro ⟨n, hn⟩
        exact absurd hn (by simp)
      · intro hc
        omega
    · constructor
      · intro _
        omega
      · intro _
        rfl

theorem C6_method_boundary_witness :
    ((["As", "Kd"] : List Card).length = 2 ∧ 1 ≤ 1 ∧
        ((["2h", "3h", "4h", "5h"] : List Card).length = 0 ∨
          (["2h", "3h", "4h", "5h"] : List Card).length = 3 ∨
          (["2h", "3h", "4h", "5h"] : List Card).length = 4 ∨
          (["2h", "3h", "4h", "5h"] : List Card).length = 5)) ∧
      (∃ q m, calculate_equity oracle0 ["As", "Kd"] ["2h", "3h", "4h", "5h"] 1 (fun _ => []) =
          Except.ok (q, m) ∧
        ((∃ n, m = Method.exactCalc n) ↔
          ((["2h", "3h", "4h", "5h"] : List Card).length = 4 ∨
            (["2h", "3h", "4h", "5h"] : List Card).length = 5)) ∧
        (m = Method.monteCarlo 1 ↔
          ((["2h", "3h", "4h", "5h"] : List Card).length = 0 ∨
            (["2h", "3h", "4h", "5h"] : List Card).length = 3))) :=
  ⟨⟨by decide, by decide, by decide⟩,
    C6_method_boundary oracle0 ["As", "Kd"] ["2h", "3h", "4h", "5h"] 1 (fun _ => [])
      (by decide) (by decide) (by decide)⟩

/-- C3 counterexample: with a budget of 0 the sampled estimator raises
`ZeroDivisionError` instead of returning any equity at all. -/
theorem C3_counterexample :
    calculate_equity oracle0 ["As", "Ks"] [] 0 (fun _ => []) =
      Except.error "ZeroDivisionError" := rfl

/-- C3 amended: for a positive budget, a 2-card hand and a board of at most 3
cards, the unknown pool always holds at least `draw_total` cards, so no trial
is skipped, every trial completes, and the returned equity is
(wins + 0.5 ties) / completed trials — which coincides with the source's
division by the requested budget. -/
theorem C3_sampled_divisor (ev : Oracle) (hand board : List Card) (sims : Nat)
    (draws : Nat → List Card) (hh : hand.length = 2) (hb : board.length ≤ 3) (hs : 1 ≤ sims) :
    completed_trials hand board sims = sims ∧
      calculate_equity ev hand board sims draws =
        Except.ok ((((mc_loop ev hand board draws sims).1 : ℚ) +
            (1 / 2) * ((mc_loop ev hand board draws sims).2 : ℚ)) /
          ((completed_trials hand board sims : ℚ)), Method.monteCarlo sims) ∧
      pokergame_calculate_equity ev hand board sims draws =
        Except.ok ((((mc_loop ev hand board draws sims).1 : ℚ) +
            (1 / 2) * ((mc_loop ev hand board draws sims).2 : ℚ)) /
          ((completed_trials hand board sims : ℚ)), Method.monteCarlo sims) := by
  have hpool := unknown_pool_length_ge hand board
  have hcomp : completed_trials hand board sims = sims := by
    unfold completed_trials
    rw [if_neg (by omega)]
  have hh2 : ¬ hand.length ≠ 2 := by omega
  have h4 : ¬ board.length ≥ 4 := by omega
  refine ⟨hcomp, ?_, ?_⟩
  · unfold calculate_equity
    rw [if_neg hh2, if_neg h4, if_neg (by omega : ¬ sims = 0), hcomp]
  · unfold pokergame_calculate_equity
    rw [if_neg hh2, if_neg (by omega : ¬ sims = 0), hcomp]

theorem C3_sampled_divisor_witness :
    ((["As", "Ks"] : List Card).length = 2 ∧ ([] : List Card).length ≤ 3 ∧ 1 ≤ 1) ∧
      (completed_trials ["As", "Ks"] [] 1 = 1 ∧
        calculate_equity oracle0 ["As", "Ks"] [] 1 (fun _ => []) =
          Except.ok ((((mc_loop oracle0 ["As", "Ks"] [] (fun _ => []) 1).1 : ℚ) +
              (1 / 2) * ((mc_loop oracle0 ["As", "Ks"] [] (fun _ => []) 1).2 : ℚ)) /
            ((completed_trials ["As", "Ks"] [] 1 : ℚ)), Method.monteCarlo 1) ∧
        pokergame_calculate_equity oracle0 ["As", "Ks"] [] 1 (fun _ => []) =
          Except.ok ((((mc_loop oracle0 ["As", "Ks"] [] (fun _ => []) 1).1 : ℚ) +
              (1 / 2) * ((mc_loop oracle0 ["As", "Ks"] [] (fun _ => []) 1).2 : ℚ)) /
            ((completed_trials ["As", "Ks"] [] 1 : ℚ)), Method.monteCarlo 1)) :=
  ⟨⟨by decide, by decide, by decide⟩,
    C3_sampled_divisor oracle0 ["As", "Ks"] [] 1 (fun _ => [])
      (by decide) (by decide) (by decide)⟩

/-- C4 counterexample: a sampled call in which zero trials complete (budget 0)
raises `ZeroDivisionError`; it does not return equity 0 with an "N/A" tag. -/
theorem C4_counterexample :
    pokergame_calculate_equity oracle0 ["Ah", "Kh"] [] 0 (fun _ => []) =
      Except.error "ZeroDivisionError" := rfl

/-- C4 amended: the "N/A" tag is reserved for hands that are not 2 cards
(see C10); a sampled call whose budget is 0 — the only way zero trials
complete for a 2-card hand and small board — raises `ZeroDivisionError`
rather than returning `(0, "N/A")`. -/
theorem C4_zero_trials_error (ev : Oracle) (hand board : List Card)
    (draws : Nat → List Card) (hh : hand.length = 2) (hb : board.length ≤ 3) :
    calculate_equity ev hand board 0 draws = Except.error "ZeroDivisionError" ∧
      pokergame_calculate_equity ev hand board 0 draws = Except.error "ZeroDivisionError" := by
  have hh2 : ¬ hand.length ≠ 2 := by omega
  have h4 : ¬ board.length ≥ 4 := by omega
  constructor
  · unfold calculate_equity
    rw [if_neg hh2, if_neg h4, if_pos rfl]
  · unfold pokergame_calculate_equity
    rw [if_neg hh2, if_pos rfl]

theorem C4_zero_trials_error_witness :
    ((["Qc", "Jc"] : List Card).length = 2 ∧ ([] : List Card).length ≤ 3) ∧
      (calculate_equity oracle0 ["Qc", "Jc"] [] 0 (fun _ => []) =
          Except.error "ZeroDivisionError" ∧
        pokergame_calculate_equity oracle0 ["Qc", "Jc"] [] 0 (fun _ => []) =
          Except.error "ZeroDivisionError") :=
  ⟨⟨by decide, by decide⟩,
    C4_zero_trials_error oracle0 ["Qc", "Jc"] [] (fun _ => []) (by decide) (by decide)⟩

/-- C5 counterexample: with equity 0.8, pot 100, to_call 20, stack 10 and big
blind 20, the value-raise branch returns amount 40, which exceeds the stack:
`max(min(3 * to_call, stack), min_raise)` un-clamps the stack bound. -/
theorem C5_counterexample :
    get_ai_action 20 false false (4 / 5) 100 20 10 = Except.ok ("Raise", 40) ∧
      ¬ ((40 : ℚ) ≤ 10) := by
  constructor
  · norm_num [get_ai_action]
  · norm_num

/-- C5 amended: for non-negative pot, to_call and stack the returned amount is
bounded by `max stack min_raise` (with `min_raise = max bb (2 * to_call)`),
and the Bet branches (`to_call = 0`) never exceed the stack; the Raise and
Call branches may exceed it. -/
theorem C5_amount_bound (bb : ℚ) (roll1 roll2 : Bool) (e pot tc stk : ℚ)
    (hpot : 0 ≤ pot) (htc : 0 ≤ tc) (hstk : 0 ≤ stk) :
    ∃ act amt, get_ai_action bb roll1 roll2 e pot tc stk = Except.ok (act, amt) ∧
      amt ≤ max stk (max bb (2 * tc)) ∧ (tc = 0 → amt ≤ stk) := by
  have herr : ¬ (tc > 0 ∧ pot + tc = 0) := by
    rintro ⟨h1, h2⟩
    linarith
  simp only [get_ai_action]
  rw [if_neg herr]
  by_cases h0 : tc = 0
  · rw [if_pos h0]
    by_cases h1 : e ≥ 75 / 100
    · rw [if_pos h1]
      exact ⟨_, _, rfl, le_trans (min_le_right _ _) (le_max_left _ _),
        fun _ => min_le_right _ _⟩
    · rw [if_neg h1]
      by_cases h2 : e ≤ 30 / 100 ∧ roll1 = true
      · rw [if_pos h2]
        exact ⟨_, _, rfl, le_trans (min_le_right _ _) (le_max_left _ _),
          fun _ => min_le_right _ _⟩
      · rw [if_neg h2]
        exact ⟨_, _, rfl, le_trans hstk (le_max_left _ _), fun _ => hstk⟩
  · rw [if_neg h0]
    by_cases h1 : e ≥ 75 / 100
    · rw [if_pos h1]
      exact ⟨_, _, rfl, max_le_max (min_le_right _ _) le_rfl, fun h => absurd h h0⟩
    · rw [if_neg h1]
      by_cases h2 : e ≥ (if tc > 0 then tc / (pot + tc) else 0) ∧ e ≥ 45 / 100
      · rw [if_pos h2]
        refine ⟨_, _, rfl, ?_, fun h => absurd h h0⟩
        refine le_trans ?_ (le_max_right stk (max bb (2 * tc)))
        refine le_trans ?_ (le_max_right bb (2 * tc))
        linarith
      · rw [if_neg h2]
        by_cases h3 : e ≥ (if tc > 0 then tc / (pot + tc) else 0) ∧ e < 45 / 100 ∧ roll2 = true
        · rw [if_pos h3]
          exact ⟨_, _, rfl, max_le_max (min_le_right _ _) le_rfl, fun h => absurd h h0⟩
        · rw [if_neg h3]
          exact ⟨_, _, rfl, le_trans hstk (le_max_left _ _), fun h => absurd h h0⟩

theorem C5_amount_bound_witness :
    ((0 : ℚ) ≤ 100 ∧ (0 : ℚ) ≤ 20 ∧ (0 : ℚ) ≤ 1000) ∧
      (∃ act amt, get_ai_action 20 false false (1 / 2) 100 20 1000 = Except.ok (act, amt) ∧
        amt ≤ max 1000 (max 20 (2 * 20)) ∧ ((20 : ℚ) = 0 → amt ≤ 1000)) :=
  ⟨⟨by norm_num, by norm_num, by norm_num⟩,
    C5_amount_bound 20 false false (1 / 2) 100 20 1000 (by norm_num) (by norm_num) (by norm_num)⟩

/-- C8 counterexample: with pot 100 and to_call 300 the pot-odds break-even
equity is 3/4 ≥ 0.45, and an equity exactly equal to it triggers the
value-raise branch (3/4 ≥ raise_threshold), so the action is Raise, not
Call. -/
theorem C8_counterexample :
    (45 / 100 : ℚ) ≤ (300 : ℚ) / (100 + 300) ∧
      get_ai_action 20 false false ((300 : ℚ) / (100 + 300)) 100 300 1000 =
        Except.ok ("Raise", 900) := by
  constructor
  · norm_num
  · norm_num [get_ai_action]

/-- C8 amended: when equity exactly equals the pot-odds requirement
`to_call / (pot + to_call)` and that requirement is at least the call
threshold 0.45, the AI never folds, whatever the bluff rolls; it calls
exactly `to_call` whenever that equity is below the raise threshold 0.75,
and raises otherwise. -/
theorem C8_pot_odds_no_fold (bb : ℚ) (roll1 roll2 : Bool) (pot tc stk : ℚ)
    (htc : 0 < tc) (hreq : 45 / 100 ≤ tc / (pot + tc)) :
    ∃ act amt, get_ai_action bb roll1 roll2 (tc / (pot + tc)) pot tc stk =
        Except.ok (act, amt) ∧ act ≠ "Fold" ∧
      (tc / (pot + tc) < 75 / 100 → act = "Call" ∧ amt = tc) := by
  have hne : pot + tc ≠ 0 := by
    intro h
    rw [h, div_zero] at hreq
    norm_num at hreq
  have herr : ¬ (tc > 0 ∧ pot + tc = 0) := by
    rintro ⟨_, h2⟩
    exact hne h2
  simp only [get_ai_action]
  rw [if_neg herr, if_neg (by linarith : ¬ tc = 0), if_pos htc]
  by_cases h1 : tc / (pot + tc) ≥ 75 / 100
  · rw [if_pos h1]
    refine ⟨_, _, rfl, by decide, fun hlt => absurd h1 (by linarith)⟩
  · rw [if_neg h1, if_pos ⟨le_rfl, hreq⟩]
    exact ⟨_, _, rfl, by decide, fun _ => ⟨rfl, rfl⟩⟩

theorem C8_pot_odds_no_fold_witness :
    ((0 : ℚ) < 100 ∧ (45 / 100 : ℚ) ≤ (100 : ℚ) / (100 + 100)) ∧
      (∃ act amt, get_ai_action 20 false false ((100 : ℚ) / (100 + 100)) 100 100 50 =
          Except.ok (act, amt) ∧ act ≠ "Fold" ∧
        ((100 : ℚ) / (100 + 100) < 75 / 100 → act = "Call" ∧ amt = 100)) :=
  ⟨⟨by norm_num, by norm_num⟩,
    C8_pot_odds_no_fold 20 false false 100 100 50 (by norm_num) (by norm_num)⟩

/-- C9: when `to_call = 0` the AI decision is always a Bet or a Check — the
Fold arm is unreachable regardless of equity, pot, stack or the bluff roll. -/
theorem C9_no_fold_when_unbet (bb : ℚ) (roll1 roll2 : Bool) (e pot stk : ℚ) :
    ∃ amt, get_ai_action bb roll1 roll2 e pot 0 stk = Except.ok ("Bet", amt) ∨
      get_ai_action bb roll1 roll2 e pot 0 stk = Except.ok ("Check", amt) := by
  have herr : ¬ ((0 : ℚ) > 0 ∧ pot + 0 = 0) := by
    rintro ⟨h, _⟩
    exact absurd h (lt_irrefl 0)
  simp only [get_ai_action]
  rw [if_neg herr]
  simp only [if_true]
  by_cases h1 : e ≥ 75 / 100
  · rw [if_pos h1]
    exact ⟨_, Or.inl rfl⟩
  · rw [if_neg h1]
    by_cases h2 : e ≤ 30 / 100 ∧ roll1 = true
    · rw [if_pos h2]
      exact ⟨_, Or.inl rfl⟩
    · rw [if_neg h2]
      exact ⟨0, Or.inr rfl⟩

theorem advance_street_chips (d : List Card) (s : GameState) :
    (advance_street d s).player_stack = s.player_stack ∧
      (advance_street d s).ai_stack = s.ai_stack ∧
      (advance_street d s).current_pot = s.current_pot ∧
      (advance_street d s).game_active = s.game_active ∧
      (advance_street d s).game_over = s.game_over := by
  unfold advance_street advance_draw
  split_ifs <;> exact ⟨rfl, rfl, rfl, rfl, rfl⟩

theorem end_hand_showdown_total (ev : Oracle) (s : GameState) :
    chipTotal (end_hand_showdown ev s) = chipSum s ∧
      (end_hand_showdown ev s).game_over = true := by
  constructor
  · simp only [end_hand_showdown, chipTotal, chipSum]
    split_ifs <;> ring
  · rfl

theorem advance_game_state_measure (ev : Oracle) (d : List Card) (s : GameState)
    (hlive : handLive s = true) :
    chipMeasure (advance_game_state ev d s) = chipSum s := by
  unfold advance_game_state
  split_ifs with h1 h2
  · unfold chipMeasure
    rw [if_neg]
    · exact (end_hand_showdown_total ev s).1
    · have hgo : (end_hand_showdown ev s).game_over = true := (end_hand_showdown_total ev s).2
      unfold handLive
      rw [hgo]
      simp
  · obtain ⟨hp, ha, hc, hga, hgo⟩ := advance_street_chips d s
    unfold chipMeasure
    rw [if_pos]
    · unfold chipSum
      rw [hp, ha, hc]
    · unfold handLive at hlive ⊢
      rw [hga, hgo]
      exact hlive
  · unfold chipMeasure
    rw [if_pos hlive]

/-- Every interaction step preserves the conserved quantity. -/
theorem chipMeasure_step (ev : Oracle) (s : GameState) (a : GAction) :
    chipMeasure (step ev s a) = chipMeasure s := by
  cases a with
  | startHand dealt =>
    simp only [step, start_new_hand]
    split_ifs with h1 h2 h3 h4 <;>
      simp_all [chipMeasure, handLive, chipSum, chipTotal] <;> ring
  | playerFold =>
    simp only [step]
    split_ifs with hg
    · obtain ⟨hact, hov, htc⟩ := hg
      simp [chipMeasure, handLive, chipSum, chipTotal, hact, hov]
      ring
    · rfl
  | playerCheck draws roll1 roll2 street_draw =>
    simp only [step]
    split_ifs with hg
    · obtain ⟨hact, hov, htc⟩ := hg
      have hlive : handLive s = true := by simp [handLive, hact, hov]
      rcases hai : handle_ai_turn ev draws roll1 roll2 s with e | ⟨act, amt⟩
      · simp only [hai]
      · simp only [hai]
        split_ifs with hchk
        · rw [advance_game_state_measure ev street_draw s hlive]
          unfold chipMeasure
          rw [if_pos hlive]
        · simp [chipMeasure, handLive, chipSum, hact, hov]
          ring
    · rfl
  | playerCall street_draw =>
    simp only [step]
    split_ifs with hg
    · obtain ⟨hact, hov, htc⟩ := hg
      rw [advance_game_state_measure ev street_draw _ (by simp [handLive, hact, hov])]
      unfold chipMeasure chipSum
      rw [if_pos (by simp [handLive, hact, hov])]
      simp
      ring
    · rfl
  | playerBetRaise amount draws roll1 roll2 street_draw =>
    simp only [step]
    split_ifs with hg
    · obtain ⟨hact, hov⟩ := hg
      have hmeas : chipMeasure s = chipSum s := by
        unfold chipMeasure
        rw [if_pos (by simp [handLive, hact, hov])]
      set s1 : GameState := { s with
        player_stack := s.player_stack - amount
        current_pot := s.current_pot + amount
        to_call := amount } with hs1
      rcases hai : handle_ai_turn ev draws roll1 roll2 s1 with e | ⟨act, amt⟩
      · simp only [hai]
        rw [hmeas]
        simp [chipMeasure, handLive, chipSum, hs1, hact, hov]
        ring
      · simp only [hai]
        split_ifs with hf hc hr
        · rw [hmeas]
          simp [chipMeasure, handLive, chipSum, chipTotal, hs1, hact, hov]
          ring
        · rw [advance_game_state_measure ev street_draw _
            (by simp [handLive, hs1, hact, hov])]
          rw [hmeas]
          simp [chipSum, hs1]
          ring
        · rw [hmeas]
          simp [chipMeasure, handLive, chipSum, hs1, hact, hov]
          ring
        · rw [hmeas]
          simp [chipMeasure, handLive, chipSum, hs1, hact, hov]
          ring
    · rfl

theorem chipMeasure_run (ev : Oracle) (acts : List GAction) (s : GameState) :
    chipMeasure (run ev acts s) = chipMeasure s := by
  induction acts generalizing s with
  | nil => rfl
  | cons a as ih =>
    have h1 : run ev (a :: as) s = run ev as (step ev s a) := rfl
    rw [h1, ih, chipMeasure_step]

/-- C1 amended: what the machine conserves across every action sequence from
a fresh game is `chipMeasure`: `player_stack + ai_stack + current_pot` equals
the sum of the initial stacks at every observation point at which the hand is
live, while at (and after) a fold or showdown resolution the pot field keeps
its stale value and `player_stack + ai_stack` alone equals that sum. -/
theorem C1_conservation (ev : Oracle) (initial_stack bb : ℚ) (acts : List GAction) :
    chipMeasure (run ev acts (init_game_state initial_stack bb)) =
      initial_stack + initial_stack := by
  rw [chipMeasure_run]
  simp [chipMeasure, handLive, init_game_state, chipTotal]

/-- C1 counterexample: start a hand from stacks (500, 500) with big blind 10
and let the player fold — a legal sequence — and the observed
`player_stack + ai_stack + pot` is 1015, not the initial 1000: the fold
handler pays the pot into the AI stack without resetting the pot field. -/
theorem C1_counterexample :
    chipSum (run oracle0 [GAction.startHand ["2s", "3s", "4s", "5s"], GAction.playerFold]
        (init_game_state 500 10)) = 1015 ∧ (1015 : ℚ) ≠ 500 + 500 := by
  constructor
  · norm_num [run, step, init_game_state, start_new_hand, chipSum]
  · norm_num

/-- C2 counterexample: in the fold-economics scenario the pot does not become
0 after the player folds — it stays 30. -/
theorem C2_counterexample :
    (run oracle0 [GAction.startHand ["Ah", "Kh", "Qh", "Jh"], GAction.playerFold]
        (init_game_state 1000 20)).current_pot ≠ 0 := by
  norm_num [run, step, init_game_state, start_new_hand]

/-- C2 amended: starting a hand from stacks (1000, 1000) with big blind 20
gives pot 30 and to_call 20; after the player folds the AI stack is 1010 and
the hand is in the terminal early-fold state (`game_over` with a fold
outcome recorded), but the pot field keeps the value 30 instead of 0. -/
theorem C2_fold_economics :
    (step oracle0 (init_game_state 1000 20)
        (GAction.startHand ["Ah", "Kh", "Qh", "Jh"])).current_pot = 30 ∧
      (step oracle0 (init_game_state 1000 20)
        (GAction.startHand ["Ah", "Kh", "Qh", "Jh"])).to_call = 20 ∧
      (run oracle0 [GAction.startHand ["Ah", "Kh", "Qh", "Jh"], GAction.playerFold]
        (init_game_state 1000 20)).ai_stack = 1010 ∧
      (run oracle0 [GAction.startHand ["Ah", "Kh", "Qh", "Jh"], GAction.playerFold]
        (init_game_state 1000 20)).current_pot = 30 ∧
      (run oracle0 [GAction.startHand ["Ah", "Kh", "Qh", "Jh"], GAction.playerFold]
        (init_game_state 1000 20)).game_over = true ∧
      (run oracle0 [GAction.startHand ["Ah", "Kh", "Qh", "Jh"], GAction.playerFold]
        (init_game_state 1000 20)).hand_outcome.isSome = true := by
  refine ⟨?_, ?_, ?_, ?_, ?_, ?_⟩ <;>
    norm_num [run, step, init_game_state, start_new_hand]

end TexasPoker
